import Mathlib

/-!
Verification of the Ecosoil Insight AKL data-cleaning pipeline
(src/streamlitapp4.py) against its natural-language specification.

The pipeline is embedded shallowly: a DataFrame is a list of rows, a row is
an association list from column names to cells, and a cell is a rational
number, a string, or null (pandas NaN).  Each pipeline stage of the source
file becomes a Lean function on frames; fallible stages return `Except`.
-/

namespace Ecosoil

/-- A cell of the table: numeric (pandas stores numbers as floats, embedded
here as exact rationals), a string, or null (NaN / missing value). -/
inductive Cell where
  | num (q : ℚ)
  | str (s : String)
  | null
deriving DecidableEq, Repr

/-- A row: association list from column name to cell.  A key absent from the
list reads as `Cell.null`, matching a NaN entry of the DataFrame. -/
def Row := List (String × Cell)
deriving DecidableEq, Repr

/-- A DataFrame: its column list and its rows. -/
structure Frame where
  cols : List String
  rows : List Row
deriving DecidableEq, Repr

deriving instance DecidableEq for Except

/-- First cell stored under key `c`, if any. -/
def findCell : List (String × Cell) → String → Option Cell
  | [], _ => none
  | p :: rest, c => if p.1 = c then some p.2 else findCell rest c

/-- Read the cell of column `c` in row `r`; missing keys read as null (NaN). -/
def getCell (r : Row) (c : String) : Cell :=
  (findCell r c).getD Cell.null

/-- Drop every pair stored under key `c`. -/
def removeCol : List (String × Cell) → String → List (String × Cell)
  | [], _ => []
  | p :: rest, c => if p.1 = c then removeCol rest c else p :: removeCol rest c

/-- Write column `c` of row `r` (pandas `df[c] = ...` semantics: overwrite the
column if present, create it otherwise). -/
def setCell (r : Row) (c : String) (v : Cell) : Row :=
  removeCol r c ++ [(c, v)]

/-- Write several columns in order. -/
def setCells (r : Row) (ps : List (String × Cell)) : Row :=
  ps.foldl (fun acc p => setCell acc p.1 p.2) r

/-- Append a column name to the schema if it is not already present
(pandas appends newly created columns at the end). -/
def addCol (cs : List String) (c : String) : List String :=
  if c ∈ cs then cs else cs ++ [c]

/-- The numeric content of a cell, if any. -/
def Cell.asNum : Cell → Option ℚ
  | Cell.num q => some q
  | _ => none

/-! ### Errors

The source wraps the whole pipeline in `try ... except Exception as e:
st.error(...)`: every uncaught Python exception aborts the run with a single
message and no output file.  The abstract error kinds below stand for the
concrete exceptions the pipeline can raise. -/

/-- The failure modes of the pipeline run. -/
inductive PipelineError where
  /-- `st.error` + `st.stop` on missing critical columns (line 35); carries
  the exact list of missing critical columns that the message displays. -/
  | schema (missing : List String)
  /-- `ValueError` from `.str.extract(r'-(\d{2})$').astype(int)` when some
  identifier has no parseable two-digit suffix (line 55). -/
  | parseSample
  /-- `ValueError` from `float(x[1:])` on an unparseable censored value
  (line 81). -/
  | censorValue
  /-- `KeyError` from selecting absent columns, e.g. `df[non_predictive_columns]`
  (line 93) or `df_final[element]` (line 125); carries the missing names. -/
  | keyErr (missing : List String)
  /-- `ValueError` from `groupby(...).idxmax()` on a group whose
  `Sample Count` values are all missing (line 74). -/
  | idxmaxAllNa
  /-- `TypeError` from dividing a string-valued element entry (line 125). -/
  | typeErr
deriving DecidableEq, Repr

/-! ### Schema Validator (lines 32-36) -/

/-- `critical_columns = ['pH', 'TC %', 'TN %', 'Olsen P', 'AMN', 'BD']`. -/
def critical_columns : List String := ["pH", "TC %", "TN %", "Olsen P", "AMN", "BD"]

/-- `missing_critical = [col for col in critical_columns if col not in df.columns]`. -/
def missing_critical (f : Frame) : List String :=
  critical_columns.filter (fun c => c ∉ f.cols)

/-- Lines 33-36: `st.error` naming the missing critical columns and `st.stop`
if any is absent, otherwise pass the frame on. -/
def validateStage (f : Frame) : Except PipelineError Frame :=
  if missing_critical f = [] then Except.ok f else Except.error (.schema (missing_critical f))

/-! ### Row Filter (line 40): `df.dropna(subset=critical_columns, how='any')` -/

/-- A row survives `dropna(subset=critical_columns, how='any')` iff none of
its critical cells is null. -/
def keepRow (r : Row) : Bool :=
  critical_columns.all (fun c => getCell r c ≠ Cell.null)

/-- Line 40: drop every row having a null in any critical column. -/
def rowFilter (f : Frame) : Frame :=
  { f with rows := f.rows.filter keepRow }

/-! ### Sample-count extraction (lines 54-57):
`df['Sample Count'] = df['Site No.1'].str.extract(r'-(\d{2})$').astype(int)` -/

/-- Match of the regex `-(\d{2})$` against a string: the last three characters
are a dash followed by two digits; the captured value is the two-digit number. -/
def extractSuffix (s : String) : Option Nat :=
  match s.data.reverse with
  | d2 :: d1 :: dash :: _ =>
      if dash = '-' ∧ d1.isDigit ∧ d2.isDigit then
        some (10 * (d1.toNat - 48) + (d2.toNat - 48))
      else none
  | _ => none

/-- Sample count of one `Site No.1` cell.  The `.str` accessor yields NaN for
non-string entries, and `.astype(int)` then fails, exactly as for a
non-matching string; both are `none` here. -/
def sampleCountOf : Cell → Option Nat
  | Cell.str s => extractSuffix s
  | _ => none

/-- Set the `Sample Count` cell of every row, failing (as `.astype(int)` does
on NaN) if any row's identifier does not match the suffix pattern. -/
def extractRows : List Row → Except PipelineError (List Row)
  | [] => Except.ok []
  | r :: rest =>
      match sampleCountOf (getCell r "Site No.1"), extractRows rest with
      | some n, Except.ok rs =>
          Except.ok (setCell r "Sample Count" (Cell.num (n : ℚ)) :: rs)
      | none, _ => Except.error .parseSample
      | _, Except.error e => Except.error e

/-- Lines 54-57: derive `Sample Count` when `Site No.1` is present; otherwise
warn and skip the stage. -/
def extractStage (f : Frame) : Except PipelineError Frame :=
  if "Site No.1" ∈ f.cols then
    match extractRows f.rows with
    | Except.ok rs => Except.ok { cols := addCol f.cols "Sample Count", rows := rs }
    | Except.error e => Except.error e
  else Except.ok f

/-! ### Period assignment (lines 60-70): `np.select(conditions, period_labels,
default='Unknown')` on four inclusive `Year` ranges. -/

/-- Period label of one `Year` cell.  The four range conditions are tested in
order and the first match wins; a NaN year satisfies no comparison, so any
non-numeric cell falls to the `'Unknown'` default. -/
def periodOf : Cell → String
  | Cell.num y =>
      if 1995 ≤ y ∧ y ≤ 2000 then "1995-2000"
      else if 2008 ≤ y ∧ y ≤ 2012 then "2008-2012"
      else if 2013 ≤ y ∧ y ≤ 2017 then "2013-2017"
      else if 2018 ≤ y ∧ y ≤ 2023 then "2018-2023"
      else "Unknown"
  | _ => "Unknown"

/-- Lines 60-70: add the `Period` column when `Year` is present; otherwise
warn and skip the stage. -/
def periodStage (f : Frame) : Frame :=
  if "Year" ∈ f.cols then
    { cols := addCol f.cols "Period",
      rows := f.rows.map (fun r => setCell r "Period" (Cell.str (periodOf (getCell r "Year")))) }
  else f

/-! ### Sample Selector (lines 73-76):
`df.loc[df.groupby(['Site Num', 'Period'])['Sample Count'].idxmax()]`.

`groupby` drops rows whose key contains NaN; within each group,
`Series.idxmax` skips NaN values and returns the label of the FIRST row
attaining the maximum, and raises if the group has no non-NaN value. -/

/-- The grouping key of a row. -/
def rowKey (r : Row) : Cell × Cell :=
  (getCell r "Site Num", getCell r "Period")

/-- `groupby` keeps only rows with no NaN in the key. -/
def keyOk (r : Row) : Bool :=
  getCell r "Site Num" ≠ Cell.null ∧ getCell r "Period" ≠ Cell.null

/-- The numeric `Sample Count` of a row, if any (NaN values are skipped by
`idxmax`). -/
def sampleVal (r : Row) : Option ℚ :=
  (getCell r "Sample Count").asNum

/-- Distinct keys in order of first occurrence, skipping those already seen. -/
def dedupFirstAux : List (Cell × Cell) → List (Cell × Cell) → List (Cell × Cell)
  | [], _ => []
  | k :: rest, seen =>
      if k ∈ seen then dedupFirstAux rest seen else k :: dedupFirstAux rest (k :: seen)

/-- Distinct keys in order of first occurrence. -/
def dedupFirst (l : List (Cell × Cell)) : List (Cell × Cell) :=
  dedupFirstAux l []

/-- `Series.idxmax`: the first row of the list attaining the maximum
`Sample Count`, skipping rows whose count is NaN; `none` when no row has a
numeric count.  Returns the row together with its count. -/
def pickMax : List Row → Option (Row × ℚ)
  | [] => none
  | r :: rest =>
      match sampleVal r, pickMax rest with
      | none, acc => acc
      | some v, none => some (r, v)
      | some v, some (r', v') => if v' > v then some (r', v') else some (r, v)

/-- One selected row per listed key; fails when some group has no numeric
`Sample Count` (as `idxmax` does). -/
def pickAll (ks : List (Cell × Cell)) (rows : List Row) : Except PipelineError (List Row)
  :=
  match ks with
  | [] => Except.ok []
  | k :: rest =>
      match pickMax (rows.filter (fun r => rowKey r = k)), pickAll rest rows with
      | some (r, _), Except.ok rs => Except.ok (r :: rs)
      | none, _ => Except.error .idxmaxAllNa
      | _, Except.error e => Except.error e

/-- The rows `groupby` keys: those without NaN in the (site, period) key. -/
def keyedRows (f : Frame) : List Row :=
  f.rows.filter keyOk

/-- The distinct (site, period) keys, in order of first occurrence. -/
def frameKeys (f : Frame) : List (Cell × Cell) :=
  dedupFirst ((keyedRows f).map rowKey)

/-- The (site, period) group of key `k`: its rows in original order. -/
def groupOf (f : Frame) (k : Cell × Cell) : List Row :=
  (keyedRows f).filter (fun r => rowKey r = k)

/-- Lines 73-76: keep, per (site, period) group, the first row with the
maximal `Sample Count`; when `Site Num` or `Period` is absent, warn and pass
the frame through unchanged.  Accessing the absent `Sample Count` column
raises a `KeyError`. -/
def selectStage (f : Frame) : Except PipelineError Frame :=
  if "Site Num" ∈ f.cols ∧ "Period" ∈ f.cols then
    if "Sample Count" ∈ f.cols then
      match pickAll (frameKeys f) (keyedRows f) with
      | Except.ok rs => Except.ok { cols := f.cols, rows := rs }
      | Except.error e => Except.error e
    else Except.error (.keyErr ["Sample Count"])
  else Except.ok f

/-! ### Censored-Value Normalizer (lines 79-81) -/

/-- `df[col].astype(str)` of a cell: numbers and NaN stringify without a `<`,
so only genuine string cells can put a column into `columns_with_less_than`. -/
def cellHasLess : Cell → Bool
  | Cell.str s => s.data.contains '<'
  | _ => false

/-- A column belongs to `columns_with_less_than` iff some cell's string form
contains `'<'` (line 79 uses `str.contains`, not a prefix test). -/
def colHasLess (f : Frame) (c : String) : Bool :=
  f.rows.any (fun r => cellHasLess (getCell r c))

/-- Parse a plain decimal literal (optional sign, digits, optional fractional
part), the shape Python's `float` accepts for values such as `"0.2"`. -/
def parseDec (s : String) : Option ℚ :=
  let core : List Char → Option ℚ := fun cs =>
    let ip := cs.takeWhile Char.isDigit
    let rest := cs.dropWhile Char.isDigit
    let natOf : List Char → ℕ := fun ds => ds.foldl (fun a d => 10 * a + (d.toNat - 48)) 0
    match rest with
    | [] => if ip = [] then none else some ((natOf ip : ℚ))
    | '.' :: fp =>
        if fp.all Char.isDigit ∧ (ip ≠ [] ∨ fp ≠ []) then
          some ((natOf ip : ℚ) + (natOf fp : ℚ) / ((10 : ℚ) ^ fp.length))
        else none
    | _ => none
  match s.data with
  | '-' :: cs => (core cs).map (fun q => -q)
  | '+' :: cs => core cs
  | cs => core cs

/-- The lambda of line 81 on a string cell, driven by its character list:
`float(x[1:]) / 2` when the first character is `'<'` (Python
`x.startswith('<')`), the string unchanged otherwise. -/
def censorChars : List Char → String → Except PipelineError Cell
  | [], s => Except.ok (Cell.str s)
  | ch :: rest, s =>
      if ch = '<' then
        match parseDec (String.mk rest) with
        | some q => Except.ok (Cell.num (q / 2))
        | none => Except.error .censorValue
      else Except.ok (Cell.str s)

/-- Line 81: the per-cell lambda.  A string cell whose first character is
`'<'` becomes `float(x[1:]) / 2` (a `ValueError` aborts the run when the
remainder does not parse); every other cell is returned unchanged. -/
def censorCell (c : Cell) : Except PipelineError Cell :=
  match c with
  | Cell.str s => censorChars s.data s
  | c => Except.ok c

/-- A cell the lambda rewrites: a string starting with the `'<'` marker. -/
def isMarked : Cell → Bool
  | Cell.str s => s.data.head? = some '<'
  | _ => false

/-- Apply the lambda to the cells of the columns listed in `ls`, leaving the
other cells untouched. -/
def censorRow (ls : List String) : List (String × Cell) → Except PipelineError Row
  | [] => Except.ok []
  | p :: rest =>
      match (if p.1 ∈ ls then censorCell p.2 else Except.ok p.2), censorRow ls rest with
      | Except.ok v, Except.ok vs => Except.ok ((p.1, v) :: vs)
      | Except.error e, _ => Except.error e
      | _, Except.error e => Except.error e

/-- `censorRow` over every row. -/
def censorRows (ls : List String) : List Row → Except PipelineError (List Row)
  | [] => Except.ok []
  | r :: rest =>
      match censorRow ls r, censorRows ls rest with
      | Except.ok r', Except.ok rs => Except.ok (r' :: rs)
      | Except.error e, _ => Except.error e
      | _, Except.error e => Except.error e

/-- Lines 79-81: replace `'<'`-prefixed strings by half the following number,
in every column whose stringified values contain a `'<'`. -/
def censorStage (f : Frame) : Except PipelineError Frame :=
  match censorRows (f.cols.filter (fun c => colHasLess f c)) f.rows with
  | Except.ok rs => Except.ok { cols := f.cols, rows := rs }
  | Except.error e => Except.error e

/-! ### Imputation Engine (lines 84-93) -/

/-- `non_predictive_columns = ['Site No.1', 'Site Num', 'Year', 'Sample Count', 'Period']`. -/
def non_predictive_columns : List String :=
  ["Site No.1", "Site Num", "Year", "Sample Count", "Period"]

/-- A cell that can live in a numeric-dtype column (numbers and NaN). -/
def isNumCell : Cell → Bool
  | Cell.str _ => false
  | _ => true

/-- A column has numeric dtype iff no cell of it is a string. -/
def numericCol (f : Frame) (c : String) : Bool :=
  f.rows.all (fun r => isNumCell (getCell r c))

/-- Line 86: the numeric columns of `df` after dropping the non-predictive
ones (`drop(..., errors='ignore')` then `select_dtypes(include=['number'])`). -/
def numerical_columns (f : Frame) : List String :=
  (f.cols.filter (fun c => c ∉ non_predictive_columns)).filter (fun c => numericCol f c)

/-- Impute one numeric-row entry: a present value passes through unchanged, a
missing one is replaced by the imputer's prediction `v`. -/
def imputeEntry (v : ℚ) : Option ℚ → ℚ :=
  fun c => c.getD v

/-- One row of the imputed array, entries indexed from `j`. -/
def imputeNumRow (fillRow : Nat → ℚ) : Nat → List (Option ℚ) → List ℚ
  | _, [] => []
  | j, c :: rest => imputeEntry (fillRow j) c :: imputeNumRow fillRow (j + 1) rest

/-- Modelled from the spec: `IterativeImputer(max_iter=10, random_state=0)
.fit_transform` (line 89) is external scikit-learn code, absent from src.
Per the spec's Imputation Engine contract (section 4.5) it returns a
fully-populated table of the same shape in which exactly the missing entries
are replaced by the (deterministic, seeded) round-robin regression
predictions — abstracted here as the function `fill` from cell position to
predicted value — while observed entries pass through unchanged. -/
def fit_transform (fill : Nat → Nat → ℚ) : Nat → List (List (Option ℚ)) → List (List ℚ)
  | _, [] => []
  | i, row :: rest => imputeNumRow (fill i) 0 row :: fit_transform fill (i + 1) rest

/-- Impute one cell of a numeric frame column (the frame-level counterpart of
`imputeEntry`): NaN becomes the prediction, everything else is unchanged. -/
def imputeCell (v : ℚ) : Cell → Cell
  | Cell.null => Cell.num v
  | c => c

/-- One row of `df_final` (line 93): the non-predictive cells of the original
row, re-joined positionally with the row's imputed numeric cells. -/
def finalRow (fillRow : String → ℚ) (nums : List String) (r : Row) : Row :=
  non_predictive_columns.map (fun c => (c, getCell r c)) ++
    nums.map (fun c => (c, imputeCell (fillRow c) (getCell r c)))

/-- All rows of `df_final`, rows indexed from `i`. -/
def finalRows (fill : Nat → String → ℚ) (nums : List String) : Nat → List Row → List Row
  | _, [] => []
  | i, r :: rest => finalRow (fill i) nums r :: finalRows fill nums (i + 1) rest

/-- Lines 84-93: impute the numeric predictive columns and reattach the
non-predictive ones.  Line 93 `df[non_predictive_columns]` raises a
`KeyError` naming the absent names whenever any non-predictive column is
missing from `df`. -/
def imputeStage (fill : Nat → String → ℚ) (f : Frame) : Except PipelineError Frame :=
  match non_predictive_columns.filter (fun c => c ∉ f.cols) with
  | [] =>
      Except.ok { cols := non_predictive_columns ++ numerical_columns f,
                  rows := finalRows fill (numerical_columns f) 0 f.rows }
  | missing => Except.error (.keyErr missing)

/-! ### Contamination Index Calculator (lines 120-138) -/

/-- `native_means`: the fixed baseline means of the 7 tracked elements
(6.2, 0.375, 28.5, 23.0, 17.95, 33.0, 94.5 as exact rationals). -/
def native_means : List (String × ℚ) :=
  [("As", 31 / 5), ("Cd", 3 / 8), ("Cr", 57 / 2), ("Cu", 23),
   ("Ni", 359 / 20), ("Pb", 33), ("Zn", 189 / 2)]

/-- Round a rational to the nearest integer, ties to even (the rounding of
numpy/pandas `.round`). -/
def roundHalfEven (x : ℚ) : ℤ :=
  let f := ⌊x⌋
  let r := x - (f : ℚ)
  if r < 1 / 2 then f
  else if 1 / 2 < r then f + 1
  else if f % 2 = 0 then f else f + 1

/-- `.round(2)`: round to 2 decimal places. -/
def rnd2 (q : ℚ) : ℚ :=
  (roundHalfEven (q * 100) : ℚ) / 100

/-- A Python float as seen by the comparisons of `classify_ici`: either an
ordinary (finite) value or NaN. -/
inductive PyFloat where
  | val (q : ℚ)
  | nan
deriving DecidableEq, Repr

/-- Python `<=` on floats: every comparison with NaN is false. -/
def PyFloat.le : PyFloat → PyFloat → Bool
  | PyFloat.val a, PyFloat.val b => a ≤ b
  | _, _ => false

/-- Python `<` on floats: every comparison with NaN is false. -/
def PyFloat.lt : PyFloat → PyFloat → Bool
  | PyFloat.val a, PyFloat.val b => a < b
  | _, _ => false

/-- Lines 130-136: `classify_ici`.  The chained comparison `1 < ici <= 3`
is `(1 < ici) and (ici <= 3)`. -/
def classify_ici (ici : PyFloat) : String :=
  if PyFloat.le ici (PyFloat.val 1) then "Low Contamination"
  else if PyFloat.lt (PyFloat.val 1) ici && PyFloat.le ici (PyFloat.val 3) then
    "Moderate Contamination"
  else "High Contamination"

/-- The float a numeric cell feeds into `classify_ici`; a NaN cell is NaN. -/
def cellFloat : Cell → PyFloat
  | Cell.num q => PyFloat.val q
  | _ => PyFloat.nan

/-- Line 125, one cell: `(df_final[element] / mean_value).round(2)`.  Dividing
NaN gives NaN; dividing a string raises a `TypeError`. -/
def ciCell (c : Cell) (m : ℚ) : Except PipelineError Cell :=
  match c with
  | Cell.num q => Except.ok (Cell.num (rnd2 (q / m)))
  | Cell.null => Except.ok Cell.null
  | Cell.str _ => Except.error .typeErr

/-- The `CI_<element>` cells of one row, in `native_means` order. -/
def ciCells (r : Row) : List (String × ℚ) → Except PipelineError (List (String × Cell))
  | [] => Except.ok []
  | em :: rest =>
      match ciCell (getCell r em.1) em.2, ciCells r rest with
      | Except.ok v, Except.ok vs => Except.ok (("CI_" ++ em.1, v) :: vs)
      | Except.error e, _ => Except.error e
      | _, Except.error e => Except.error e

/-- Line 128: `df_final[ci_columns].mean(axis=1).round(2)` for one row —
the mean of the row's `CI_` cells, skipping NaN entries (pandas `mean` uses
`skipna=True`); the mean of an all-NaN set is NaN. -/
def iciCell (cis : List (String × Cell)) : Cell :=
  if (cis.filterMap (fun p => p.2.asNum)).length = 0 then Cell.null
  else
    Cell.num (rnd2 ((cis.filterMap (fun p => p.2.asNum)).sum /
      ((cis.filterMap (fun p => p.2.asNum)).length : ℚ)))

/-- Attach the computed `CI_` cells, the `ICI` cell and the `ICI_Class` cell
to a row (lines 125, 128 and 138). -/
def contamFinish (r : Row) (cis : List (String × Cell)) : Row :=
  setCell (setCell (setCells r cis) "ICI" (iciCell cis))
    "ICI_Class" (Cell.str (classify_ici (cellFloat (iciCell cis))))

/-- Lines 124-138 applied to one row: add the 7 `CI_` columns, the `ICI`
column and the `ICI_Class` column. -/
def contamRow (r : Row) : Except PipelineError Row :=
  match ciCells r native_means with
  | Except.error e => Except.error e
  | Except.ok cis => Except.ok (contamFinish r cis)

/-- `contamRow` over every row. -/
def contamRows : List Row → Except PipelineError (List Row)
  | [] => Except.ok []
  | r :: rest =>
      match contamRow r, contamRows rest with
      | Except.ok r', Except.ok rs => Except.ok (r' :: rs)
      | Except.error e, _ => Except.error e
      | _, Except.error e => Except.error e

/-- Lines 120-138: derive the contamination columns.  `df_final[element]`
raises a `KeyError` on the first missing element column. -/
def contamStage (f : Frame) : Except PipelineError Frame :=
  match (native_means.map Prod.fst).filter (fun e => e ∉ f.cols) with
  | [] =>
      match contamRows f.rows with
      | Except.ok rs =>
          Except.ok { cols := (f.cols ++ native_means.map (fun em => "CI_" ++ em.1))
                        ++ ["ICI", "ICI_Class"],
                      rows := rs }
      | Except.error e => Except.error e
  | e :: _ => Except.error (.keyErr [e])

/-! ### The composed pipeline (the body of the `try:` block) -/

/-- The pipeline stages downstream of the Row Filter. -/
def pipelineTail (fill : Nat → String → ℚ) (f : Frame) : Except PipelineError Frame :=
  match extractStage f with
  | Except.error e => Except.error e
  | Except.ok f3 =>
      match selectStage (periodStage f3) with
      | Except.error e => Except.error e
      | Except.ok f5 =>
          match censorStage f5 with
          | Except.error e => Except.error e
          | Except.ok f6 =>
              match imputeStage fill f6 with
              | Except.error e => Except.error e
              | Except.ok f7 => contamStage f7

/-- The whole cleaning pipeline of the source file (duplicate removal is
gated on a button press and not part of the automatic run).  `fill` stands
for the imputer's predictions.  An `Except.error` outcome is the
`except Exception` branch: one surfaced message, no output file. -/
def pipeline (fill : Nat → String → ℚ) (f : Frame) : Except PipelineError Frame :=
  match validateStage f with
  | Except.error e => Except.error e
  | Except.ok f1 => pipelineTail fill (rowFilter f1)

/-! ### Concrete example data -/

/-- A row carrying every critical measurement plus identifier columns. -/
def exampleRow : Row :=
  [("pH", Cell.num 6), ("TC %", Cell.num 1), ("TN %", Cell.num 1),
   ("Olsen P", Cell.num 1), ("AMN", Cell.num 1), ("BD", Cell.num 1),
   ("Site No.1", Cell.str "S-01"), ("Site Num", Cell.num 1)]

/-- A dataset with all critical columns, `Site No.1` and `Site Num`, but no
`Year` column. -/
def noYearFrame : Frame :=
  { cols := ["pH", "TC %", "TN %", "Olsen P", "AMN", "BD", "Site No.1", "Site Num"],
    rows := [exampleRow] }

/-- `exampleRow` with an identifier whose suffix is a single digit. -/
def badSuffixRow : Row :=
  setCell exampleRow "Site No.1" (Cell.str "S-1")

/-- A selector-stage row with the given site number, period and sample count. -/
def selRow (site : ℚ) (p : String) (sc : ℚ) : Row :=
  [("Site Num", Cell.num site), ("Period", Cell.str p), ("Sample Count", Cell.num sc)]

/-- A dataset exercising the (site, period) grouping: group (1, a) with a tie
on the maximal count 5, group (2, a), and group (1, b). -/
def selFrame : Frame :=
  { cols := ["Site Num", "Period", "Sample Count"],
    rows := [selRow 1 "a" 2, selRow 1 "a" 5, selRow 1 "a" 5, selRow 2 "a" 1, selRow 1 "b" 3] }

/-- A one-column dataset holding a censored value and a numeric-capable
string. -/
def censorFrame : Frame :=
  { cols := ["X"], rows := [[("X", Cell.str "<0.2")], [("X", Cell.str "3")]] }

/-- A row whose element concentrations all equal the baseline means. -/
def baselineRow : Row :=
  [("As", Cell.num (31 / 5)), ("Cd", Cell.num (3 / 8)), ("Cr", Cell.num (57 / 2)),
   ("Cu", Cell.num 23), ("Ni", Cell.num (359 / 20)), ("Pb", Cell.num 33),
   ("Zn", Cell.num (189 / 2))]

/-- A dataset with rows on both sides of the 1995-2000 / gap boundary. -/
def yearFrame : Frame :=
  { cols := ["Year"], rows := [[("Year", Cell.num 2000)], [("Year", Cell.num 2001)]] }

/-- A dataset whose critical columns stop at `pH`. -/
def phOnlyFrame : Frame :=
  { cols := ["pH"], rows := [] }

/-- A dataset with one complete row and one row lacking a critical value. -/
def mixedNullFrame : Frame :=
  { cols := ["pH", "TC %", "TN %", "Olsen P", "AMN", "BD"],
    rows := [[("pH", Cell.num 6), ("TC %", Cell.num 1), ("TN %", Cell.num 1),
              ("Olsen P", Cell.num 1), ("AMN", Cell.num 1), ("BD", Cell.num 1)],
             [("pH", Cell.null), ("TC %", Cell.num 1), ("TN %", Cell.num 1),
              ("Olsen P", Cell.num 1), ("AMN", Cell.num 1), ("BD", Cell.num 1)]] }

/-! ## Theorems

The rational operations are `@[irreducible]` in Mathlib; they are unsealed
here so that `decide` can evaluate the pipeline on concrete frames. -/

unseal Rat.add Rat.mul Rat.inv Rat.sub

theorem findCell_append (l1 l2 : List (String × Cell)) (c : String) :
    findCell (l1 ++ l2) c = (findCell l1 c).orElse (fun _ => findCell l2 c) := by
  induction l1 with
  | nil => rfl
  | cons p rest ih =>
    by_cases hp : p.1 = c
    · simp [findCell, hp]
    · simp [findCell, hp, ih]

theorem findCell_removeCol_self (r : Row) (c : String) :
    findCell (removeCol r c) c = none := by
  induction r with
  | nil => rfl
  | cons p rest ih =>
    by_cases hp : p.1 = c
    · simpa [removeCol, hp] using ih
    · simpa [removeCol, findCell, hp] using ih

theorem getCell_setCell_self (r : Row) (c : String) (v : Cell) :
    getCell (setCell r c v) c = v := by
  unfold getCell setCell
  rw [findCell_append, findCell_removeCol_self]
  simp [findCell]

theorem findCell_removeCol_ne (r : Row) (c c' : String) (h : c' ≠ c) :
    findCell (removeCol r c) c' = findCell r c' := by
  induction r with
  | nil => rfl
  | cons p rest ih =>
    by_cases hp : p.1 = c
    · have hne : p.1 ≠ c' := by rw [hp]; exact Ne.symm h
      rw [show removeCol (p :: rest) c = removeCol rest c by simp [removeCol, hp]]
      rw [ih, show findCell (p :: rest) c' = findCell rest c' by simp [findCell, hne]]
    · rw [show removeCol (p :: rest) c = p :: removeCol rest c by simp [removeCol, hp]]
      by_cases hc : p.1 = c'
      · simp [findCell, hc]
      · simp [findCell, hc, ih]

theorem getCell_setCell_ne (r : Row) (c c' : String) (v : Cell) (h : c' ≠ c) :
    getCell (setCell r c v) c' = getCell r c' := by
  unfold getCell setCell
  rw [findCell_append, findCell_removeCol_ne r c c' h]
  cases hl : findCell r c' with
  | none => simp [findCell, Ne.symm h]
  | some v' => simp

theorem getD_map (fn : Row → Row) (l : List Row) (i : Nat) (h : i < l.length) :
    (l.map fn).getD i [] = fn (l.getD i []) := by
  induction l generalizing i with
  | nil => cases h
  | cons a t ih =>
    cases i with
    | zero => rfl
    | succ n => exact ih n (Nat.lt_of_succ_lt_succ h)

/-- C6: for every dataset missing at least one of the required critical
columns (pH, TC %, TN %, Olsen P, AMN, BD), the Schema Validator fails with
an error naming exactly the list of missing critical columns, and the whole
pipeline run halts with that single error, producing no output frame. -/
theorem schema_validator_fails_exact (fill : Nat → String → ℚ) (f : Frame)
    (h : ∃ c ∈ critical_columns, c ∉ f.cols) :
    missing_critical f ≠ [] ∧
    validateStage f = Except.error (PipelineError.schema (missing_critical f)) ∧
    pipeline fill f = Except.error (PipelineError.schema (missing_critical f)) := by
  have hne : missing_critical f ≠ [] := by
    obtain ⟨c, hc, hnc⟩ := h
    intro he
    have hm : c ∈ missing_critical f := by
      unfold missing_critical
      rw [List.mem_filter]
      exact ⟨hc, by simpa using hnc⟩
    rw [he] at hm
    exact List.not_mem_nil c hm
  have hv : validateStage f = Except.error (PipelineError.schema (missing_critical f)) := by
    unfold validateStage
    rw [if_neg hne]
  refine ⟨hne, hv, ?_⟩
  unfold pipeline
  rw [hv]

/-- C6 witness: a dataset whose only critical column is `pH` is rejected with
exactly the other five critical columns. -/
theorem schema_validator_fails_exact_witness :
    pipeline (fun _ _ => 0) phOnlyFrame =
      Except.error (PipelineError.schema ["TC %", "TN %", "Olsen P", "AMN", "BD"]) :=
  ((schema_validator_fails_exact (fun _ _ => 0) phOnlyFrame
    ⟨"BD", by decide, by decide⟩).2.2).trans (congrArg (fun l => Except.error (PipelineError.schema l)) (by decide))

/-- C7: after the Row Filter drops the rows with a null critical value, no
retained row has a null in any critical column, and re-applying the filter to
its own output changes nothing. -/
theorem row_filter_sound_idempotent (f : Frame) :
    (∀ r ∈ (rowFilter f).rows, ∀ c ∈ critical_columns, getCell r c ≠ Cell.null) ∧
    rowFilter (rowFilter f) = rowFilter f := by
  constructor
  · intro r hr c hc
    unfold rowFilter at hr
    simp only [List.mem_filter] at hr
    have hk := hr.2
    unfold keepRow at hk
    rw [List.all_eq_true] at hk
    simpa using hk c hc
  · unfold rowFilter
    simp only [List.filter_filter]
    congr 1
    apply List.filter_congr
    intro r _
    exact Bool.and_self (keepRow r)

/-- C7 witness: on a concrete dataset the surviving row has non-null
criticals and the filter is idempotent. -/
theorem row_filter_sound_idempotent_witness :
    getCell ((rowFilter mixedNullFrame).rows.getD 0 []) "pH" ≠ Cell.null ∧
    rowFilter (rowFilter mixedNullFrame) = rowFilter mixedNullFrame := by
  refine ⟨?_, (row_filter_sound_idempotent mixedNullFrame).2⟩
  have h := (row_filter_sound_idempotent mixedNullFrame).1
  have hm : (rowFilter mixedNullFrame).rows.getD 0 [] ∈ (rowFilter mixedNullFrame).rows := by
    decide
  exact h _ hm "pH" (by decide)

/-- C10: `classify_ici` is total — it returns one of the three labels for
every input — and any value for which both threshold comparisons are false,
in particular NaN (for which `ici <= 1` and `1 < ici <= 3` are both false),
falls through to the else branch and is labeled High Contamination. -/
theorem classify_ici_total_nan_high :
    (∀ x : PyFloat, classify_ici x = "Low Contamination" ∨
      classify_ici x = "Moderate Contamination" ∨
      classify_ici x = "High Contamination") ∧
    (∀ x : PyFloat, PyFloat.le x (PyFloat.val 1) = false →
      (PyFloat.lt (PyFloat.val 1) x && PyFloat.le x (PyFloat.val 3)) = false →
      classify_ici x = "High Contamination") ∧
    PyFloat.le PyFloat.nan (PyFloat.val 1) = false ∧
    (PyFloat.lt (PyFloat.val 1) PyFloat.nan && PyFloat.le PyFloat.nan (PyFloat.val 3)) = false ∧
    classify_ici PyFloat.nan = "High Contamination" := by
  refine ⟨?_, ?_, by decide, by decide, by decide⟩
  · intro x
    unfold classify_ici
    cases h1 : PyFloat.le x (PyFloat.val 1) with
    | true => simp
    | false =>
      cases h2 : PyFloat.lt (PyFloat.val 1) x && PyFloat.le x (PyFloat.val 3) with
      | true => simp [h2]
      | false => simp [h2]
  · intro x h1 h2
    unfold classify_ici
    rw [h1, h2]
    simp

/-- C10 witness: the NaN instance. -/
theorem classify_ici_total_nan_high_witness :
    classify_ici PyFloat.nan = "High Contamination" :=
  classify_ici_total_nan_high.2.1 PyFloat.nan (by decide) (by decide)

theorem periodOf_num (y : ℚ) : periodOf (Cell.num y) =
    if 1995 ≤ y ∧ y ≤ 2000 then "1995-2000"
    else if 2008 ≤ y ∧ y ≤ 2012 then "2008-2012"
    else if 2013 ≤ y ∧ y ≤ 2017 then "2013-2017"
    else if 2018 ≤ y ∧ y ≤ 2023 then "2018-2023"
    else "Unknown" := rfl

/-- C4: when a `Year` column is present, every row's `Period` label is
assigned by testing the year against the four fixed inclusive ranges
1995-2000, 2008-2012, 2013-2017, 2018-2023 in order, first match winning,
with `"Unknown"` when no range matches. -/
theorem period_ranges (f : Frame) (h : "Year" ∈ f.cols) :
    (periodStage f).rows.length = f.rows.length ∧
    "Period" ∈ (periodStage f).cols ∧
    ∀ i : Nat, i < f.rows.length → ∀ y : ℚ,
      getCell (f.rows.getD i []) "Year" = Cell.num y →
      ((1995 ≤ y ∧ y ≤ 2000) →
        getCell ((periodStage f).rows.getD i []) "Period" = Cell.str "1995-2000") ∧
      ((2008 ≤ y ∧ y ≤ 2012) →
        getCell ((periodStage f).rows.getD i []) "Period" = Cell.str "2008-2012") ∧
      ((2013 ≤ y ∧ y ≤ 2017) →
        getCell ((periodStage f).rows.getD i []) "Period" = Cell.str "2013-2017") ∧
      ((2018 ≤ y ∧ y ≤ 2023) →
        getCell ((periodStage f).rows.getD i []) "Period" = Cell.str "2018-2023") ∧
      (¬(1995 ≤ y ∧ y ≤ 2000) → ¬(2008 ≤ y ∧ y ≤ 2012) → ¬(2013 ≤ y ∧ y ≤ 2017) →
        ¬(2018 ≤ y ∧ y ≤ 2023) →
        getCell ((periodStage f).rows.getD i []) "Period" = Cell.str "Unknown") := by
  have hstage : periodStage f =
      { cols := addCol f.cols "Period",
        rows := f.rows.map
          (fun r => setCell r "Period" (Cell.str (periodOf (getCell r "Year")))) } := by
    unfold periodStage
    rw [if_pos h]
  rw [hstage]
  refine ⟨by simp, ?_, ?_⟩
  · unfold addCol
    by_cases hp : "Period" ∈ f.cols
    · simp [hp]
    · simp [hp]
  · intro i hi y hy
    rw [getD_map _ _ _ hi, getCell_setCell_self, hy]
    refine ⟨?_, ?_, ?_, ?_, ?_⟩
    · intro hr; rw [periodOf_num, if_pos hr]
    · intro hr
      have h1 : ¬(1995 ≤ y ∧ y ≤ 2000) := by
        rintro ⟨-, hb⟩
        exact absurd (le_trans hr.1 hb) (by norm_num)
      rw [periodOf_num, if_neg h1, if_pos hr]
    · intro hr
      have h1 : ¬(1995 ≤ y ∧ y ≤ 2000) := by
        rintro ⟨-, hb⟩
        exact absurd (le_trans hr.1 hb) (by norm_num)
      have h2 : ¬(2008 ≤ y ∧ y ≤ 2012) := by
        rintro ⟨-, hb⟩
        exact absurd (le_trans hr.1 hb) (by norm_num)
      rw [periodOf_num, if_neg h1, if_neg h2, if_pos hr]
    · intro hr
      have h1 : ¬(1995 ≤ y ∧ y ≤ 2000) := by
        rintro ⟨-, hb⟩
        exact absurd (le_trans hr.1 hb) (by norm_num)
      have h2 : ¬(2008 ≤ y ∧ y ≤ 2012) := by
        rintro ⟨-, hb⟩
        exact absurd (le_trans hr.1 hb) (by norm_num)
      have h3 : ¬(2013 ≤ y ∧ y ≤ 2017) := by
        rintro ⟨-, hb⟩
        exact absurd (le_trans hr.1 hb) (by norm_num)
      rw [periodOf_num, if_neg h1, if_neg h2, if_neg h3, if_pos hr]
    · intro h1 h2 h3 h4
      rw [periodOf_num, if_neg h1, if_neg h2, if_neg h3, if_neg h4]

/-- C4 witness: Year 2000 maps to "1995-2000" (boundary inclusivity) and
Year 2001 maps to "Unknown" (gap between ranges). -/
theorem period_ranges_witness :
    getCell ((periodStage yearFrame).rows.getD 0 []) "Period" = Cell.str "1995-2000" ∧
    getCell ((periodStage yearFrame).rows.getD 1 []) "Period" = Cell.str "Unknown" := by
  have h := period_ranges yearFrame (by decide)
  constructor
  · exact ((h.2.2 0 (by decide) 2000 (by decide)).1) (by norm_num)
  · exact ((h.2.2 1 (by decide) 2001 (by decide)).2.2.2.2) (by norm_num) (by norm_num)
      (by norm_num) (by norm_num)

/-- C5 (code bug): on a dataset that has every critical column plus
`Site No.1` and `Site Num` but no `Year` column, the pipeline does warn and
skip the period and selector stages, yet it does not continue to a final
output: re-attaching `df[non_predictive_columns]` (line 93) raises a
`KeyError` naming the absent `Year` and `Period` columns, so the run aborts
with an error and produces no output. -/
theorem pipeline_keyerror_on_missing_year :
    pipeline (fun _ _ => 0) noYearFrame =
      Except.error (PipelineError.keyErr ["Year", "Period"]) := by
  decide

theorem extractRows_error (rs : List Row)
    (h : ∃ r ∈ rs, sampleCountOf (getCell r "Site No.1") = none) :
    extractRows rs = Except.error PipelineError.parseSample := by
  induction rs with
  | nil =>
    obtain ⟨r, hr, -⟩ := h
    exact absurd hr (List.not_mem_nil r)
  | cons r rest ih =>
    obtain ⟨r0, hr0, hbad⟩ := h
    rcases List.mem_cons.mp hr0 with he | hm
    · subst he
      unfold extractRows
      rw [hbad]
      cases extractRows rest <;> rfl
    · have htl := ih ⟨r0, hm, hbad⟩
      unfold extractRows
      rw [htl]
      cases hsc : sampleCountOf (getCell r "Site No.1") <;> simp

/-- C8: when the dataset reaching the extraction stage has a `Site No.1`
column and some row whose identifier lacks a parseable two-digit trailing
suffix, `astype(int)` raises, and the rest of the run — every stage from
extraction onward — fails with that single parse error, so no output frame
is produced. -/
theorem parse_error_aborts_run (fill : Nat → String → ℚ) (f : Frame)
    (h1 : "Site No.1" ∈ f.cols)
    (h2 : ∃ r ∈ f.rows, sampleCountOf (getCell r "Site No.1") = none) :
    extractStage f = Except.error PipelineError.parseSample ∧
    pipelineTail fill f = Except.error PipelineError.parseSample := by
  have hex : extractStage f = Except.error PipelineError.parseSample := by
    unfold extractStage
    rw [if_pos h1, extractRows_error f.rows h2]
  refine ⟨hex, ?_⟩
  unfold pipelineTail
  rw [hex]

/-- C8 witness: an identifier ending in a one-digit suffix (`"S-1"`) aborts
the run at the extraction stage. -/
theorem parse_error_aborts_run_witness :
    pipelineTail (fun _ _ => 0)
      { cols := ["pH", "TC %", "TN %", "Olsen P", "AMN", "BD", "Site No.1", "Site Num"],
        rows := [badSuffixRow] } = Except.error PipelineError.parseSample :=
  (parse_error_aborts_run (fun _ _ => 0) _ (by decide)
    ⟨badSuffixRow, by decide, by decide⟩).2

theorem findCell_of_getCell (r : Row) (c : String) (v : Cell)
    (h : getCell r c = v) (hne : v ≠ Cell.null) : findCell r c = some v := by
  unfold getCell at h
  cases hf : findCell r c with
  | none => rw [hf] at h; exact absurd h.symm hne
  | some w => rw [hf] at h; simpa using h

theorem censorCell_str (s : String) : censorCell (Cell.str s) = censorChars s.data s := rfl

theorem censorCell_unmarked (v : Cell) (h : isMarked v = false) :
    censorCell v = Except.ok v := by
  cases v with
  | num q => rfl
  | null => rfl
  | str s =>
    rw [censorCell_str]
    have hh : (s.data.head? = some '<') = False := by
      simpa [isMarked] using h
    cases hd : s.data with
    | nil => simp only [censorChars]
    | cons ch rest =>
      rw [hd] at hh
      have hne : ch ≠ '<' := by
        intro he
        rw [he] at hh
        simp at hh
      simp only [censorChars]
      rw [if_neg hne]

theorem censorCell_marked (s : String) (rest : List Char) (q : ℚ)
    (hd : s.data = '<' :: rest) (hp : parseDec (String.mk rest) = some q) :
    censorCell (Cell.str s) = Except.ok (Cell.num (q / 2)) := by
  rw [censorCell_str, hd]
  simp only [censorChars]
  rw [if_pos trivial, hp]

theorem censorRow_findCell (ls : List String) (r r' : Row)
    (h : censorRow ls r = Except.ok r') (c : String) :
    (findCell r c = none → findCell r' c = none) ∧
    (∀ v, findCell r c = some v →
      ∃ v', findCell r' c = some v' ∧
        (c ∈ ls → censorCell v = Except.ok v') ∧ (c ∉ ls → v' = v)) := by
  induction r generalizing r' with
  | nil =>
    unfold censorRow at h
    cases h
    exact ⟨fun _ => rfl, fun v hv => by cases hv⟩
  | cons p rest ih =>
    unfold censorRow at h
    cases hcv : (if p.1 ∈ ls then censorCell p.2 else Except.ok p.2) with
    | error e =>
      rw [hcv] at h
      cases hcr : censorRow ls rest <;> rw [hcr] at h <;> cases h
    | ok v0 =>
      cases hcr : censorRow ls rest with
      | error e => rw [hcv, hcr] at h; cases h
      | ok vs =>
        rw [hcv, hcr] at h
        cases h
        obtain ⟨ihn, ihs⟩ := ih vs hcr
        constructor
        · intro hn
          unfold findCell at hn ⊢
          by_cases hp : p.1 = c
          · rw [if_pos hp] at hn; cases hn
          · rw [if_neg hp] at hn ⊢
            exact ihn hn
        · intro v hv
          unfold findCell at hv ⊢
          by_cases hp : p.1 = c
          · rw [if_pos hp] at hv ⊢
            cases hv
            refine ⟨v0, rfl, ?_, ?_⟩
            · intro hc
              rwa [if_pos (hp ▸ hc : p.1 ∈ ls)] at hcv
            · intro hc
              rw [if_neg (hp ▸ hc : p.1 ∉ ls)] at hcv
              cases hcv
              rfl
          · rw [if_neg hp] at hv ⊢
            exact ihs v hv

theorem censorRows_ok (ls : List String) (rs rs' : List Row)
    (h : censorRows ls rs = Except.ok rs') :
    rs'.length = rs.length ∧
    ∀ i, i < rs.length → censorRow ls (rs.getD i []) = Except.ok (rs'.getD i []) := by
  induction rs generalizing rs' with
  | nil =>
    unfold censorRows at h
    cases h
    exact ⟨rfl, fun i hi => absurd hi (by simp)⟩
  | cons r rest ih =>
    unfold censorRows at h
    cases hcr : censorRow ls r with
    | error e =>
      rw [hcr] at h
      cases hcs : censorRows ls rest <;> rw [hcs] at h <;> cases h
    | ok r0 =>
      cases hcs : censorRows ls rest with
      | error e => rw [hcr, hcs] at h; cases h
      | ok rest0 =>
        rw [hcr, hcs] at h
        cases h
        obtain ⟨hl, hp⟩ := ih rest0 hcs
        refine ⟨by simp [hl], ?_⟩
        intro i hi
        cases i with
        | zero => exact hcr
        | succ n => exact hp n (Nat.lt_of_succ_lt_succ hi)

theorem colHasLess_of_marked (f : Frame) (c : String) (i : Nat)
    (hi : i < f.rows.length) (s : String) (rest : List Char)
    (hg : getCell (f.rows.getD i []) c = Cell.str s) (hd : s.data = '<' :: rest) :
    colHasLess f c = true := by
  unfold colHasLess
  rw [List.any_eq_true]
  refine ⟨f.rows.getD i [], ?_, ?_⟩
  · rw [List.getD_eq_getElem f.rows [] hi]
    exact List.getElem_mem hi
  · rw [hg]
    show (s.data.contains '<') = true
    rw [hd]
    simp [List.contains_cons]

/-- C3 (amended): for every column of the dataset containing at least one
string value beginning with the `"<"` marker, the Censored-Value Normalizer
replaces each such parseable value with the numeric value following the
marker divided by 2; every value not beginning with the marker — numeric,
null or string alike — is left unchanged (no numeric coercion is applied),
and in particular columns containing no marked value are untouched. -/
theorem censor_replaces_marked_leaves_rest (f g : Frame)
    (hok : censorStage f = Except.ok g) :
    g.cols = f.cols ∧ g.rows.length = f.rows.length ∧
    (∀ i, i < f.rows.length → ∀ c, c ∈ f.cols → ∀ s : String, ∀ rest : List Char, ∀ q : ℚ,
      getCell (f.rows.getD i []) c = Cell.str s →
      s.data = '<' :: rest →
      parseDec (String.mk rest) = some q →
      getCell (g.rows.getD i []) c = Cell.num (q / 2)) ∧
    (∀ i, i < f.rows.length → ∀ c,
      isMarked (getCell (f.rows.getD i []) c) = false →
      getCell (g.rows.getD i []) c = getCell (f.rows.getD i []) c) := by
  unfold censorStage at hok
  cases hcs : censorRows (f.cols.filter (fun c => colHasLess f c)) f.rows with
  | error e => rw [hcs] at hok; cases hok
  | ok rs =>
    rw [hcs] at hok
    cases hok
    obtain ⟨hlen, hpt⟩ := censorRows_ok _ _ _ hcs
    refine ⟨rfl, hlen, ?_, ?_⟩
    · intro i hi c hc s rest q hg hd hp
      have hrow := hpt i hi
      have hmem : c ∈ f.cols.filter (fun c => colHasLess f c) := by
        rw [List.mem_filter]
        exact ⟨hc, by simpa using colHasLess_of_marked f c i hi s rest hg hd⟩
      have hfind : findCell (f.rows.getD i []) c = some (Cell.str s) :=
        findCell_of_getCell _ _ _ hg (by intro h; cases h)
      obtain ⟨v', hv', hin, -⟩ := (censorRow_findCell _ _ _ hrow c).2 _ hfind
      have hcc := hin hmem
      rw [censorCell_marked s rest q hd hp] at hcc
      cases hcc
      unfold getCell
      rw [hv']
      rfl
    · intro i hi c hm
      have hrow := hpt i hi
      cases hf : findCell (f.rows.getD i []) c with
      | none =>
        have := (censorRow_findCell _ _ _ hrow c).1 hf
        unfold getCell
        rw [hf, this]
      | some v =>
        have hgv : getCell (f.rows.getD i []) c = v := by
          unfold getCell; rw [hf]; rfl
        obtain ⟨v', hv', hin, hout⟩ := (censorRow_findCell _ _ _ hrow c).2 _ hf
        have hvv : v' = v := by
          by_cases hc : c ∈ f.cols.filter (fun c => colHasLess f c)
          · have := hin hc
            rw [censorCell_unmarked v (by rwa [hgv] at hm)] at this
            cases this
            rfl
          · exact hout hc
        unfold getCell
        rw [hv', hf, hvv]

/-- C3 counterexample: in a column containing the censored value `"<0.2"`,
the non-marked numeric-capable string `"3"` is NOT coerced to a number — the
output cell is still the string `"3"` — refuting the claim that non-marked
values of such a column are coerced to numeric. -/
theorem censor_no_coercion_counterexample :
    censorStage censorFrame =
      Except.ok { cols := ["X"],
                  rows := [[("X", Cell.num (1 / 10))], [("X", Cell.str "3")]] } ∧
    (∀ q : ℚ, Cell.str "3" ≠ Cell.num q) := by
  refine ⟨by decide, ?_⟩
  intro q h
  cases h

/-- C3 witness: `"<0.2"` normalizes to `0.2 / 2 = 0.1`, and the neighbouring
unmarked cell is unchanged. -/
theorem censor_replaces_marked_leaves_rest_witness :
    (∃ g, censorStage censorFrame = Except.ok g ∧
      getCell (g.rows.getD 0 []) "X" = Cell.num (1 / 10) ∧
      getCell (g.rows.getD 1 []) "X" = getCell (censorFrame.rows.getD 1 []) "X") := by
  refine ⟨{ cols := ["X"], rows := [[("X", Cell.num (1 / 10))], [("X", Cell.str "3")]] },
    by decide, ?_, ?_⟩
  · have h := censor_replaces_marked_leaves_rest censorFrame
      { cols := ["X"], rows := [[("X", Cell.num (1 / 10))], [("X", Cell.str "3")]] }
      (by decide)
    have := h.2.2.1 0 (by decide) "X" (by decide) "<0.2" ['0', '.', '2'] (1 / 5)
      (by decide) (by decide) (by decide)
    rw [this]
    norm_num
  · exact (censor_replaces_marked_leaves_rest censorFrame
      { cols := ["X"], rows := [[("X", Cell.num (1 / 10))], [("X", Cell.str "3")]] }
      (by decide)).2.2.2 1 (by decide) "X" (by decide)

theorem imputeNumRow_length (fr : Nat → ℚ) (j : Nat) (row : List (Option ℚ)) :
    (imputeNumRow fr j row).length = row.length := by
  induction row generalizing j with
  | nil => rfl
  | cons c rest ih => simp [imputeNumRow, ih]

theorem imputeNumRow_observed (fr : Nat → ℚ) (j : Nat) (row : List (Option ℚ)) :
    ∀ pc ∈ row.zip (imputeNumRow fr j row), ∀ q : ℚ, pc.1 = some q → pc.2 = q := by
  induction row generalizing j with
  | nil => intro pc hpc; cases hpc
  | cons c rest ih =>
    intro pc hpc q hq
    rcases List.mem_cons.mp hpc with he | hm
    · subst he
      simp only at hq
      rw [hq]
      rfl
    · exact ih (j + 1) pc hm q hq

theorem imputeNumRow_id (fr : Nat → ℚ) (j : Nat) (row : List (Option ℚ))
    (h : ∀ c ∈ row, c ≠ none) :
    imputeNumRow fr j row = row.map (fun c => c.getD 0) := by
  induction row generalizing j with
  | nil => rfl
  | cons c rest ih =>
    have hc : c ≠ none := h c (List.mem_cons_self c rest)
    cases c with
    | none => exact absurd rfl hc
    | some q =>
      simp only [imputeNumRow, List.map_cons]
      rw [ih (j + 1) (fun c hm => h c (List.mem_cons_of_mem _ hm))]
      rfl

/-- C9: applying the Imputation Engine to a numeric table with zero missing
values returns the table unchanged (here exactly, hence a fortiori up to
floating-point tolerance) with identical row count and per-row width in the
same order, and — with or without missing values elsewhere — every observed
entry is reproduced unchanged, so columns that had no missing values are not
altered. -/
theorem imputation_roundtrip (fill : Nat → Nat → ℚ) (i0 : Nat)
    (x : List (List (Option ℚ))) :
    (fit_transform fill i0 x).length = x.length ∧
    (∀ pr ∈ x.zip (fit_transform fill i0 x),
      pr.2.length = pr.1.length ∧
      ∀ pc ∈ pr.1.zip pr.2, ∀ q : ℚ, pc.1 = some q → pc.2 = q) ∧
    ((∀ row ∈ x, ∀ c ∈ row, c ≠ none) →
      fit_transform fill i0 x = x.map (fun row => row.map (fun c => c.getD 0))) := by
  induction x generalizing i0 with
  | nil => exact ⟨rfl, fun pr hpr => absurd hpr (by simp), fun _ => rfl⟩
  | cons row rest ih =>
    obtain ⟨ihl, ihz, ihid⟩ := ih (i0 + 1)
    refine ⟨by simp [fit_transform, ihl], ?_, ?_⟩
    · intro pr hpr
      rcases List.mem_cons.mp hpr with he | hm
      · subst he
        exact ⟨imputeNumRow_length _ 0 row, imputeNumRow_observed _ 0 row⟩
      · exact ihz pr hm
    · intro h
      simp only [fit_transform, List.map_cons]
      rw [imputeNumRow_id _ 0 row (h row (List.mem_cons_self row rest)),
        ihid (fun r hr => h r (List.mem_cons_of_mem _ hr))]

/-- C9 witness: a concrete complete table passes through unchanged. -/
theorem imputation_roundtrip_witness :
    fit_transform (fun _ _ => 5) 0 [[some 1, some 2], [some 3, some 4]] =
      [[1, 2], [3, 4]] :=
  ((imputation_roundtrip (fun _ _ => 5) 0 [[some 1, some 2], [some 3, some 4]]).2.2
    (by decide)).trans (by decide)

theorem getCell_setCells_not_mem (ps : List (String × Cell)) (r : Row) (c : String)
    (h : c ∉ ps.map Prod.fst) : getCell (setCells r ps) c = getCell r c := by
  induction ps generalizing r with
  | nil => rfl
  | cons p rest ih =>
    have h1 : c ≠ p.1 := fun he => h (by simp [he])
    have h2 : c ∉ rest.map Prod.fst := fun hm => h (by simp [hm])
    show getCell (setCells (setCell r p.1 p.2) rest) c = getCell r c
    rw [ih (setCell r p.1 p.2) h2, getCell_setCell_ne r p.1 c p.2 h1]

theorem getCell_setCells_mem (ps : List (String × Cell)) (r : Row) (c : String) (v : Cell)
    (hnd : (ps.map Prod.fst).Nodup) (hmem : (c, v) ∈ ps) :
    getCell (setCells r ps) c = v := by
  induction ps generalizing r with
  | nil => cases hmem
  | cons p rest ih =>
    rcases List.mem_cons.mp hmem with he | hm
    · have hc : c = p.1 := by rw [← he]
      have hnin : c ∉ rest.map Prod.fst := by
        rw [hc]
        exact (List.nodup_cons.mp (by simpa using hnd)).1
      show getCell (setCells (setCell r p.1 p.2) rest) c = v
      rw [getCell_setCells_not_mem rest _ c hnin, hc, getCell_setCell_self, ← he]
    · show getCell (setCells (setCell r p.1 p.2) rest) c = v
      exact ih (setCell r p.1 p.2) (List.nodup_cons.mp (by simpa using hnd)).2 hm

theorem ciCell_num (q m : ℚ) : ciCell (Cell.num q) m = Except.ok (Cell.num (rnd2 (q / m))) :=
  rfl

theorem ciCells_ok (r : Row) (ems : List (String × ℚ))
    (h : ∀ em ∈ ems, ∃ q : ℚ, getCell r em.1 = Cell.num q) :
    ciCells r ems = Except.ok (ems.map (fun em =>
      ("CI_" ++ em.1, Cell.num (rnd2 (((getCell r em.1).asNum.getD 0) / em.2))))) := by
  induction ems with
  | nil => rfl
  | cons em rest ih =>
    obtain ⟨q, hq⟩ := h em (List.mem_cons_self em rest)
    unfold ciCells
    rw [List.map_cons, hq, ih (fun e he => h e (List.mem_cons_of_mem _ he))]
    rfl

theorem filterMap_asNum_map (ems : List (String × ℚ)) (g : String × ℚ → ℚ) :
    ((ems.map (fun em => ("CI_" ++ em.1, Cell.num (g em)))).filterMap
      (fun p => p.2.asNum)) = ems.map g := by
  induction ems with
  | nil => rfl
  | cons em rest ih =>
    simp only [List.map_cons, List.filterMap_cons]
    rw [show (Cell.num (g em)).asNum = some (g em) from rfl, ih]

theorem classify_val (x : ℚ) :
    (x ≤ 1 → classify_ici (PyFloat.val x) = "Low Contamination") ∧
    (1 < x → x ≤ 3 → classify_ici (PyFloat.val x) = "Moderate Contamination") ∧
    (3 < x → classify_ici (PyFloat.val x) = "High Contamination") := by
  refine ⟨?_, ?_, ?_⟩
  · intro h
    simp [classify_ici, PyFloat.le, h]
  · intro h1 h2
    simp [classify_ici, PyFloat.le, PyFloat.lt, not_le.mpr h1, h1, h2]
  · intro h3
    have h1 : ¬x ≤ 1 := not_le.mpr (lt_trans (by norm_num) h3)
    have h2 : ¬x ≤ 3 := not_le.mpr h3
    simp [classify_ici, PyFloat.le, PyFloat.lt, h1, h2]

/-- C1: for every row whose 7 element cells (As, Cd, Cr, Cu, Ni, Pb, Zn) are
numeric, the Contamination Index Calculator adds one ratio column per element
equal to the element value divided by its fixed baseline mean rounded to 2
decimals, an `ICI` column equal to the mean of the 7 ratio columns rounded to
2 decimals, and an `ICI_Class` column equal to "Low Contamination" when
ICI <= 1, "Moderate Contamination" when 1 < ICI <= 3 and "High Contamination"
when ICI > 3. -/
theorem contamination_index_row (r : Row)
    (h : ∀ em ∈ native_means, ∃ q : ℚ, getCell r em.1 = Cell.num q) :
    ∃ r', contamRow r = Except.ok r' ∧
      (∀ em ∈ native_means, ∀ q : ℚ, getCell r em.1 = Cell.num q →
        getCell r' ("CI_" ++ em.1) = Cell.num (rnd2 (q / em.2))) ∧
      getCell r' "ICI" = Cell.num (rnd2
        ((native_means.map (fun em => rnd2 (((getCell r em.1).asNum.getD 0) / em.2))).sum / 7)) ∧
      (∀ x : ℚ, getCell r' "ICI" = Cell.num x →
        (x ≤ 1 → getCell r' "ICI_Class" = Cell.str "Low Contamination") ∧
        (1 < x → x ≤ 3 → getCell r' "ICI_Class" = Cell.str "Moderate Contamination") ∧
        (3 < x → getCell r' "ICI_Class" = Cell.str "High Contamination")) := by
  have hX := ciCells_ok r native_means h
  have hfst : ((native_means.map (fun em =>
      ("CI_" ++ em.1, Cell.num (rnd2 (((getCell r em.1).asNum.getD 0) / em.2))))).map
        Prod.fst) = ["CI_As", "CI_Cd", "CI_Cr", "CI_Cu", "CI_Ni", "CI_Pb", "CI_Zn"] := rfl
  have hnd : ((native_means.map (fun em =>
      ("CI_" ++ em.1, Cell.num (rnd2 (((getCell r em.1).asNum.getD 0) / em.2))))).map
        Prod.fst).Nodup := by
    rw [hfst]
    decide
  refine ⟨contamFinish r (native_means.map (fun em =>
      ("CI_" ++ em.1, Cell.num (rnd2 (((getCell r em.1).asNum.getD 0) / em.2))))), ?_, ?_, ?_, ?_⟩
  · unfold contamRow
    rw [hX]
  · intro em hem q hq
    unfold contamFinish
    have hcl : ∀ e ∈ native_means.map Prod.fst,
        "CI_" ++ e ≠ "ICI_Class" ∧ "CI_" ++ e ≠ "ICI" := by decide
    have hne := hcl em.1 (List.mem_map_of_mem Prod.fst hem)
    rw [getCell_setCell_ne _ _ _ _ hne.1, getCell_setCell_ne _ _ _ _ hne.2,
      getCell_setCells_mem _ _ _ _ hnd (List.mem_map_of_mem _ hem), hq]
    rfl
  · unfold contamFinish
    rw [getCell_setCell_ne _ _ _ _ (by decide : ("ICI" : String) ≠ "ICI_Class"),
      getCell_setCell_self]
    unfold iciCell
    rw [filterMap_asNum_map]
    rw [show (native_means.map (fun em => rnd2 (((getCell r em.1).asNum.getD 0) / em.2))).length
        = 7 from by simp [native_means]]
    rw [if_neg (by decide : ¬(7 = 0))]
    norm_num
  · intro x hx
    unfold contamFinish at hx ⊢
    rw [getCell_setCell_ne _ _ _ _ (by decide : ("ICI" : String) ≠ "ICI_Class"),
      getCell_setCell_self] at hx
    rw [getCell_setCell_self]
    rw [show cellFloat (iciCell (native_means.map (fun em =>
        ("CI_" ++ em.1, Cell.num (rnd2 (((getCell r em.1).asNum.getD 0) / em.2)))))) =
        PyFloat.val x from by rw [hx]; rfl]
    obtain ⟨c1, c2, c3⟩ := classify_val x
    exact ⟨fun hle => by rw [c1 hle], fun hl hle => by rw [c2 hl hle], fun hl => by rw [c3 hl]⟩

/-- C1 witness: a row whose element values all equal their baselines gets
every ratio equal to 1.00, ICI 1.00 and class "Low Contamination". -/
theorem contamination_index_row_witness :
    ∃ r', contamRow baselineRow = Except.ok r' ∧
      getCell r' "CI_As" = Cell.num 1 ∧
      getCell r' "ICI" = Cell.num 1 ∧
      getCell r' "ICI_Class" = Cell.str "Low Contamination" := by
  obtain ⟨r', hok, hci, hici, hcls⟩ :=
    contamination_index_row baselineRow (by
      intro em hem
      fin_cases hem <;> exact ⟨_, rfl⟩)
  have h1 : getCell r' "CI_As" = Cell.num 1 :=
    (hci ("As", 31 / 5) (by decide) (31 / 5) (by decide)).trans (by decide)
  have h2 : getCell r' "ICI" = Cell.num 1 := hici.trans (by decide)
  exact ⟨r', hok, h1, h2, (hcls 1 h2).1 (by norm_num)⟩

theorem pickMax_none (rs : List Row) (h : pickMax rs = none) :
    ∀ x ∈ rs, sampleVal x = none := by
  induction rs with
  | nil => intro x hx; cases hx
  | cons r rest ih =>
    intro x hx
    unfold pickMax at h
    cases hsv : sampleVal r with
    | some v =>
      rw [hsv] at h
      cases hpm : pickMax rest with
      | none => rw [hpm] at h; cases h
      | some p =>
        rw [hpm] at h
        cases p
        dsimp only at h
        split at h <;> cases h
    | none =>
      rw [hsv] at h
      rcases List.mem_cons.mp hx with he | hm
      · subst he; exact hsv
      · exact ih h x hm

theorem pickMax_spec (rs : List Row) (r : Row) (v : ℚ)
    (h : pickMax rs = some (r, v)) :
    sampleVal r = some v ∧
    (∀ x ∈ rs, ∀ w : ℚ, sampleVal x = some w → w ≤ v) ∧
    ∃ l1 l2, rs = l1 ++ r :: l2 ∧ ∀ x ∈ l1, ∀ w : ℚ, sampleVal x = some w → w < v := by
  induction rs generalizing r v with
  | nil => cases h
  | cons a rest ih =>
    unfold pickMax at h
    cases hsv : sampleVal a with
    | none =>
      rw [hsv] at h
      obtain ⟨h1, h2, l1, l2, hdec, hstr⟩ := ih r v h
      refine ⟨h1, ?_, a :: l1, l2, by rw [hdec, List.cons_append], ?_⟩
      · intro x hx w hw
        rcases List.mem_cons.mp hx with he | hm
        · subst he; rw [hsv] at hw; cases hw
        · exact h2 x hm w hw
      · intro x hx w hw
        rcases List.mem_cons.mp hx with he | hm
        · subst he; rw [hsv] at hw; cases hw
        · exact hstr x hm w hw
    | some va =>
      rw [hsv] at h
      cases hpm : pickMax rest with
      | none =>
        rw [hpm] at h
        cases h
        refine ⟨hsv, ?_, [], rest, rfl, by intro x hx; cases hx⟩
        intro x hx w hw
        rcases List.mem_cons.mp hx with he | hm
        · subst he; rw [hsv] at hw; cases hw; exact le_refl _
        · rw [pickMax_none rest hpm x hm] at hw; cases hw
      | some p =>
        obtain ⟨r', v'⟩ := p
        rw [hpm] at h
        dsimp only at h
        by_cases hgt : v' > va
        · rw [if_pos hgt] at h
          cases h
          obtain ⟨h1, h2, l1, l2, hdec, hstr⟩ := ih r v hpm
          refine ⟨h1, ?_, a :: l1, l2, by rw [hdec, List.cons_append], ?_⟩
          · intro x hx w hw
            rcases List.mem_cons.mp hx with he | hm
            · subst he; rw [hsv] at hw; cases hw; exact le_of_lt hgt
            · exact h2 x hm w hw
          · intro x hx w hw
            rcases List.mem_cons.mp hx with he | hm
            · subst he; rw [hsv] at hw; cases hw; exact hgt
            · exact hstr x hm w hw
        · rw [if_neg hgt] at h
          cases h
          obtain ⟨-, h2, -⟩ := ih r' v' hpm
          refine ⟨hsv, ?_, [], rest, rfl, by intro x hx; cases hx⟩
          intro x hx w hw
          rcases List.mem_cons.mp hx with he | hm
          · subst he; rw [hsv] at hw; cases hw; exact le_refl _
          · exact le_trans (h2 x hm w hw) (not_lt.mp hgt)

theorem pickAll_ok_of (ks : List (Cell × Cell)) (rows : List Row)
    (h : ∀ k ∈ ks, ∃ p : Row × ℚ, pickMax (rows.filter (fun r => rowKey r = k)) = some p) :
    ∃ rs, pickAll ks rows = Except.ok rs := by
  induction ks with
  | nil => exact ⟨[], rfl⟩
  | cons k rest ih =>
    obtain ⟨⟨r0, v0⟩, hp⟩ := h k (List.mem_cons_self k rest)
    obtain ⟨rs, hrs⟩ := ih (fun k' hk' => h k' (List.mem_cons_of_mem _ hk'))
    refine ⟨r0 :: rs, ?_⟩
    unfold pickAll
    rw [hp, hrs]

theorem pickAll_forall2 (ks : List (Cell × Cell)) (rows : List Row) :
    ∀ rs, pickAll ks rows = Except.ok rs →
    List.Forall₂ (fun k r => ∃ v : ℚ,
      pickMax (rows.filter (fun x => rowKey x = k)) = some (r, v)) ks rs := by
  induction ks with
  | nil =>
    intro rs h
    unfold pickAll at h
    cases h
    exact List.Forall₂.nil
  | cons k rest ih =>
    intro rs h
    unfold pickAll at h
    cases hpm : pickMax (rows.filter (fun r => rowKey r = k)) with
    | none =>
      rw [hpm] at h
      cases hpa : pickAll rest rows <;> rw [hpa] at h <;> cases h
    | some p =>
      obtain ⟨r0, v0⟩ := p
      rw [hpm] at h
      cases hpa : pickAll rest rows with
      | error e => rw [hpa] at h; cases h
      | ok rs' =>
        rw [hpa] at h
        cases h
        exact List.Forall₂.cons ⟨v0, hpm⟩ (ih rs' hpa)

theorem mem_dedupFirstAux (l : List (Cell × Cell)) :
    ∀ (seen : List (Cell × Cell)) (a : Cell × Cell),
      a ∈ dedupFirstAux l seen ↔ a ∈ l ∧ a ∉ seen := by
  induction l with
  | nil => intro seen a; simp [dedupFirstAux]
  | cons k rest ih =>
    intro seen a
    unfold dedupFirstAux
    by_cases hk : k ∈ seen
    · rw [if_pos hk, ih]
      constructor
      · rintro ⟨ha, hs⟩; exact ⟨List.mem_cons_of_mem _ ha, hs⟩
      · rintro ⟨ha, hs⟩
        rcases List.mem_cons.mp ha with he | hm
        · subst he; exact absurd hk hs
        · exact ⟨hm, hs⟩
    · rw [if_neg hk]
      constructor
      · intro hmem
        rcases List.mem_cons.mp hmem with he | hm
        · subst he; exact ⟨List.mem_cons_self _ _, hk⟩
        · have hh := (ih (k :: seen) a).mp hm
          exact ⟨List.mem_cons_of_mem _ hh.1,
            fun hs => hh.2 (List.mem_cons_of_mem _ hs)⟩
      · rintro ⟨ha, hs⟩
        rcases List.mem_cons.mp ha with he | hm
        · subst he; exact List.mem_cons_self _ _
        · by_cases hak : a = k
          · subst hak; exact List.mem_cons_self _ _
          · refine List.mem_cons_of_mem _ ((ih (k :: seen) a).mpr ⟨hm, ?_⟩)
            intro hks
            rcases List.mem_cons.mp hks with h1 | h2
            · exact hak h1
            · exact hs h2

theorem nodup_dedupFirstAux (l : List (Cell × Cell)) :
    ∀ seen : List (Cell × Cell), (dedupFirstAux l seen).Nodup := by
  induction l with
  | nil => intro seen; exact List.nodup_nil
  | cons k rest ih =>
    intro seen
    unfold dedupFirstAux
    by_cases hk : k ∈ seen
    · rw [if_pos hk]; exact ih seen
    · rw [if_neg hk]
      refine List.nodup_cons.mpr ⟨?_, ih (k :: seen)⟩
      intro hmem
      exact ((mem_dedupFirstAux rest (k :: seen) k).mp hmem).2 (List.mem_cons_self _ _)

theorem mem_dedupFirst (l : List (Cell × Cell)) (a : Cell × Cell) :
    a ∈ dedupFirst l ↔ a ∈ l := by
  unfold dedupFirst
  rw [mem_dedupFirstAux]
  simp

theorem nodup_dedupFirst (l : List (Cell × Cell)) : (dedupFirst l).Nodup :=
  nodup_dedupFirstAux l []

theorem length_dedupFirstAux (l : List (Cell × Cell)) :
    ∀ seen : List (Cell × Cell), (dedupFirstAux l seen).length ≤ l.length := by
  induction l with
  | nil => intro seen; exact le_refl 0
  | cons k rest ih =>
    intro seen
    unfold dedupFirstAux
    by_cases hk : k ∈ seen
    · rw [if_pos hk]
      exact le_trans (ih seen) (Nat.le_succ _)
    · rw [if_neg hk]
      exact Nat.succ_le_succ (ih (k :: seen))

theorem forall2_mem_right {α β : Type} {R : α → β → Prop} :
    ∀ (l1 : List α) (l2 : List β), List.Forall₂ R l1 l2 →
      ∀ b ∈ l2, ∃ a ∈ l1, R a b := by
  intro l1
  induction l1 with
  | nil =>
    intro l2 hf b hb
    cases hf
    cases hb
  | cons a0 l1' ih =>
    intro l2 hf b hb
    cases l2 with
    | nil => cases hb
    | cons b0 l2' =>
      rw [List.forall₂_cons] at hf
      rcases List.mem_cons.mp hb with he | hm
      · subst he; exact ⟨a0, List.mem_cons_self _ _, hf.1⟩
      · obtain ⟨a, ha, hr⟩ := ih l2' hf.2 b hm
        exact ⟨a, List.mem_cons_of_mem _ ha, hr⟩

theorem forall2_filter_singleton :
    ∀ (ks : List (Cell × Cell)) (rs rows : List Row),
      List.Forall₂ (fun k r => rowKey r = k ∧ ∃ v : ℚ,
        pickMax (rows.filter (fun x => rowKey x = k)) = some (r, v)) ks rs →
      ks.Nodup → ∀ k ∈ ks,
      ∃ r0 v0, rs.filter (fun r => rowKey r = k) = [r0] ∧
        pickMax (rows.filter (fun x => rowKey x = k)) = some (r0, v0) := by
  intro ks
  induction ks with
  | nil => intro rs rows hf hnd k hk; cases hk
  | cons k0 ks' ih =>
    intro rs rows hf hnd k hk
    cases rs with
    | nil => cases hf
    | cons r0 rs' =>
      rw [List.forall₂_cons] at hf
      obtain ⟨⟨hkey, v0, hpm⟩, htail⟩ := hf
      have hnd' := List.nodup_cons.mp hnd
      rcases List.mem_cons.mp hk with he | hm
      · subst he
        refine ⟨r0, v0, ?_, hpm⟩
        rw [List.filter_cons, if_pos (by simpa using hkey)]
        have hrest : rs'.filter (fun r => rowKey r = k) = [] := by
          rw [List.filter_eq_nil_iff]
          intro r' hr'
          obtain ⟨k', hk', hP⟩ := forall2_mem_right ks' rs' htail r' hr'
          simp only [decide_eq_true_eq]
          rw [hP.1]
          intro he2
          exact hnd'.1 (he2 ▸ hk')
        rw [hrest]
      · have hne : rowKey r0 ≠ k := by
          rw [hkey]
          intro he2
          exact hnd'.1 (he2 ▸ hm)
        rw [List.filter_cons, if_neg (by simpa using hne)]
        exact ih rs' rows htail hnd'.2 k hm

/-- C2: when the `Site Num`, `Period` and `Sample Count` columns are present
(with the derived sample counts numeric, as `astype(int)` makes them), the
Sample Selector succeeds and its output has exactly one row per non-empty
(site, period) group; that row's `Sample Count` is the group's maximum, the
winner on ties is the first occurrence of the maximum in original row order,
and the output row count never exceeds the input row count. -/
theorem sample_selector_groups (f : Frame)
    (hc : "Site Num" ∈ f.cols ∧ "Period" ∈ f.cols ∧ "Sample Count" ∈ f.cols)
    (hnum : ∀ r ∈ f.rows, (sampleVal r).isSome) :
    ∃ g, selectStage f = Except.ok g ∧
      g.cols = f.cols ∧
      g.rows.length = (frameKeys f).length ∧
      g.rows.length ≤ f.rows.length ∧
      ∀ k ∈ frameKeys f,
        ∃ r0 v0, g.rows.filter (fun r => rowKey r = k) = [r0] ∧
          sampleVal r0 = some v0 ∧
          (∀ x ∈ groupOf f k, ∀ w : ℚ, sampleVal x = some w → w ≤ v0) ∧
          ∃ l1 l2, groupOf f k = l1 ++ r0 :: l2 ∧
            ∀ x ∈ l1, ∀ w : ℚ, sampleVal x = some w → w < v0 := by
  have hexists : ∀ k ∈ frameKeys f, ∃ p : Row × ℚ,
      pickMax ((keyedRows f).filter (fun r => rowKey r = k)) = some p := by
    intro k hk
    have hkl : k ∈ (keyedRows f).map rowKey := (mem_dedupFirst _ k).mp hk
    obtain ⟨x, hx, hxk⟩ := List.mem_map.mp hkl
    have hxg : x ∈ (keyedRows f).filter (fun r => rowKey r = k) := by
      rw [List.mem_filter]
      exact ⟨hx, by simpa using hxk⟩
    cases hpm : pickMax ((keyedRows f).filter (fun r => rowKey r = k)) with
    | some p => exact ⟨p, rfl⟩
    | none =>
      have hnone := pickMax_none _ hpm x hxg
      have hxr : x ∈ f.rows := List.mem_of_mem_filter hx
      have hsome := hnum x hxr
      rw [hnone] at hsome
      simp at hsome
  obtain ⟨rs, hrs⟩ := pickAll_ok_of (frameKeys f) (keyedRows f) hexists
  have hsel : selectStage f = Except.ok ⟨f.cols, rs⟩ := by
    unfold selectStage
    rw [if_pos ⟨hc.1, hc.2.1⟩, if_pos hc.2.2, hrs]
  have hf2 := pickAll_forall2 (frameKeys f) (keyedRows f) rs hrs
  have hf2' : List.Forall₂ (fun k r => rowKey r = k ∧ ∃ v : ℚ,
      pickMax ((keyedRows f).filter (fun x => rowKey x = k)) = some (r, v))
      (frameKeys f) rs := by
    refine List.Forall₂.imp ?_ hf2
    intro k r hkr
    obtain ⟨v, hv⟩ := hkr
    obtain ⟨-, -, l1, l2, hdec, -⟩ := pickMax_spec _ _ _ hv
    have hrmem : r ∈ (keyedRows f).filter (fun x => rowKey x = k) := by
      rw [hdec]
      exact List.mem_append_right _ (List.mem_cons_self _ _)
    have hkr2 := (List.mem_filter.mp hrmem).2
    exact ⟨by simpa using hkr2, v, hv⟩
  refine ⟨⟨f.cols, rs⟩, hsel, rfl, ?_, ?_, ?_⟩
  · exact (List.Forall₂.length_eq hf2').symm
  · calc rs.length = (frameKeys f).length := (List.Forall₂.length_eq hf2').symm
    _ ≤ ((keyedRows f).map rowKey).length := length_dedupFirstAux _ []
    _ = (keyedRows f).length := List.length_map _ _
    _ ≤ f.rows.length := List.length_filter_le _ _
  · intro k hk
    obtain ⟨r0, v0, hfil, hpm⟩ :=
      forall2_filter_singleton (frameKeys f) rs (keyedRows f) hf2'
        (nodup_dedupFirst _) k hk
    obtain ⟨hval, hbound, l1, l2, hdec, hstr⟩ := pickMax_spec _ _ _ hpm
    exact ⟨r0, v0, hfil, hval, hbound, l1, l2, hdec, hstr⟩

/-- C2 witness: on a concrete dataset with a tie on the maximal sample count
the selector succeeds and does not increase the row count. -/
theorem sample_selector_groups_witness :
    ∃ g, selectStage selFrame = Except.ok g ∧ g.rows.length ≤ selFrame.rows.length := by
  obtain ⟨g, hok, -, -, hle, -⟩ :=
    sample_selector_groups selFrame (by decide) (by decide)
  exact ⟨g, hok, hle⟩

end Ecosoil
